import Mathlib

/-!
Verification of the water-rocket flight simulator (`WaterRocket` in
`src/main.py`) against its natural-language specification.

The embedding is a direct translation of the Python class into Lean:
machine floats become real numbers, the mutable object state becomes an
explicit `State` record threaded through a `step` function, and the
append-only `data` dictionary becomes a `List Entry` field.  The fixed
timestep `self.dt` is assigned exactly once (to `0.005`, in `reset`) and
never mutated, so it is embedded as the constant `dt`.
-/

namespace WaterRocket

/-- Gravitational acceleration (src/main.py line 12). -/
def g : ℝ := 9.81

/-- Ambient air density (line 13). -/
def rho_air : ℝ := 1.225

/-- Water density (line 14). -/
def rho_water : ℝ := 1000

/-- Drag coefficient (line 15). -/
def C_d : ℝ := 0.5

/-- Rocket cross-section area (line 16). -/
def A : ℝ := 0.008

/-- Nozzle throat area (line 17). -/
def A_t : ℝ := 0.0001

/-- Empty rocket mass (line 18). -/
def m_empty : ℝ := 0.15

/-- Atmospheric pressure (line 19). -/
def P_atm : ℝ := 101325

/-- Bottle volume (line 20). -/
def V_bottle : ℝ := 0.002

/-- Adiabatic index of air (line 21). -/
def gamma : ℝ := 1.4

/-- Specific gas constant of air (line 22). -/
def R_specific : ℝ := 287

/-- Initial air temperature (line 23). -/
def T0 : ℝ := 300

/-- Fixed integration timestep, assigned in `reset` (line 33). -/
def dt : ℝ := 0.005

/-- Flight phase (`self.phase`, one of the strings `'water'`, `'air'`,
`'coasting'`). -/
inductive Phase : Type
  | water
  | air
  | coasting
deriving DecidableEq

/-- One record appended to `self.data` per step: the tuple
(t, y, v, a, water_level_percent). -/
structure Entry : Type where
  t : ℝ
  y : ℝ
  v : ℝ
  a : ℝ
  waterLevel : ℝ

/-- The mutable state of a `WaterRocket` instance: constructor parameters,
derived initial quantities, the integrator state and the accumulated
record. -/
structure State : Type where
  P0 : ℝ
  V_water0 : ℝ
  t : ℝ
  y : ℝ
  v : ℝ
  a : ℝ
  V_air0 : ℝ
  V_air : ℝ
  V_water : ℝ
  m : ℝ
  P : ℝ
  T : ℝ
  phase : Phase
  record : List Entry

/-- `np.sign` on real scalars: -1, 0 or 1 according to the sign of the
argument. -/
noncomputable def npSign (x : ℝ) : ℝ :=
  if x < 0 then -1 else if x = 0 then 0 else 1

/-- `WaterRocket.__init__` / `WaterRocket.reset` (lines 26-44): the state of
a freshly constructed simulator. -/
def init (P0 V_water0 : ℝ) : State where
  P0 := P0
  V_water0 := V_water0
  t := 0
  y := 0
  v := 0
  a := 0
  V_air0 := V_bottle - V_water0
  V_air := V_bottle - V_water0
  V_water := V_water0
  m := m_empty + V_water0 * rho_water
  P := P0
  T := T0
  phase := Phase.water
  record := []

/-- Water-phase exit velocity, the Python local `v_e` of lines 50-51:
`np.sqrt(2 * (self.P - P_atm) / rho_water)` as a function of the
pre-step state. -/
noncomputable def waterExitV (s : State) : ℝ :=
  Real.sqrt (2 * (s.P - P_atm) / rho_water)

/-- Water-phase mass-flow rate, the Python local `dm_dt` of line 53:
`-rho_water * A_t * v_e`. -/
noncomputable def waterDm (s : State) : ℝ :=
  -rho_water * A_t * waterExitV s

/-- Air-phase exit temperature, the Python local `T_exit` of line 72 (with
`P_exit = self.P` from line 71). -/
noncomputable def airTexit (s : State) : ℝ :=
  s.T * (s.P / s.P0) ^ ((gamma - 1) / gamma)

/-- Air-phase exit velocity, the Python local `v_e` of line 74. -/
noncomputable def airExitV (s : State) : ℝ :=
  Real.sqrt (2 * gamma * R_specific * airTexit s / (gamma - 1) *
    (1 - (P_atm / s.P) ^ ((gamma - 1) / gamma)))

/-- Air-phase exit density, the Python local `rho_exit` of line 76. -/
noncomputable def airRhoExit (s : State) : ℝ :=
  s.P / (R_specific * airTexit s)

/-- Air-phase mass-flow rate, the Python local `dm_dt` of line 77:
`-A_t * rho_exit * v_e`. -/
noncomputable def airDm (s : State) : ℝ :=
  -A_t * airRhoExit s * airExitV s

/-- The adiabatic pressure update `self.P0 * (self.V_air0 / V) ** gamma`
of lines 58 and 82, as a function of the state and the new air volume. -/
noncomputable def adiabaticP (s : State) (V : ℝ) : ℝ :=
  s.P0 * (s.V_air0 / V) ^ gamma

/-- The phase-specific part of `WaterRocket.step` (lines 47-92): returns the
thrust of this step together with the state after the phase branch ran.
Each `match`/`if` arm mirrors one branch of the Python code; the Python
locals `v_e`, `dm_dt`, `T_exit`, `rho_exit` are the functions `waterExitV`,
`waterDm`, `airTexit`, `airRhoExit`, ... of the pre-step state.  Note that
in the water branch the mass-flow rate is computed from the pre-update
pressure, the pressure update uses the pre-update water volume, and the
exhaustion branches only switch the phase and force zero thrust. -/
noncomputable def stepCore (s : State) : ℝ × State :=
  match s.phase with
  | Phase.water =>
    if s.V_water > 0 then
      (waterExitV s * -waterDm s,
        { s with
          V_air := V_bottle - s.V_water
          P := adiabaticP s (V_bottle - s.V_water)
          V_water := s.V_water + waterDm s / rho_water * dt
          m := s.m + waterDm s * dt })
    else
      (0, { s with phase := Phase.air })
  | Phase.air =>
    if s.P > P_atm then
      (airExitV s * -airDm s + (s.P - P_atm) * A_t,
        { s with
          V_air := s.V_air + A_t * airExitV s * dt
          P := adiabaticP s (s.V_air + A_t * airExitV s * dt)
          T := T0 * (adiabaticP s (s.V_air + A_t * airExitV s * dt) / s.P0) ^
            ((gamma - 1) / gamma)
          m := s.m + airDm s * dt })
    else
      (0, { s with phase := Phase.coasting })
  | Phase.coasting => (0, s)

/-- The common tail of `WaterRocket.step` (lines 94-118), run after the
phase branch with the thrust it produced: drag, net force, acceleration,
Euler updates of velocity and position, time advance, and the append of
one record entry.  The phase branch never touches `t`, `y`, `v`, `a`,
`V_water0` or `record`, so the tail reads them from the branch result. -/
noncomputable def stepTail (F_thrust : ℝ) (s : State) : State :=
  let F_drag := 0.5 * rho_air * s.v ^ 2 * C_d * A * npSign (-s.v)
  let F_net := F_thrust - s.m * g - F_drag
  let a1 := F_net / s.m
  let v1 := s.v + a1 * dt
  let y1 := s.y + v1 * dt
  let t1 := s.t + dt
  let wl := if s.V_water0 > 0 then max s.V_water 0 / s.V_water0 * 100 else 0
  { s with
    t := t1
    y := y1
    v := v1
    a := a1
    record := s.record ++ [⟨t1, y1, v1, a1, wl⟩] }

/-- `WaterRocket.step` (lines 46-118), one full fixed-timestep advance. -/
noncomputable def step (s : State) : State :=
  stepTail (stepCore s).1 (stepCore s).2

/-- The guard of the `while` loop in `WaterRocket.run` (line 121):
`self.y >= 0 or self.v > 0`. -/
def loopCond (s : State) : Prop := s.y ≥ 0 ∨ s.v > 0

/-- `WaterRocket.run` (lines 120-122) as a big-step relation: `RunTo s u`
holds when the `while` loop started from `s` performs finitely many calls
to `step` — each taken while the guard holds — and stops in state `u`,
where the guard fails. -/
def RunTo (s u : State) : Prop :=
  ∃ n : ℕ, u = step^[n] s ∧ (∀ k, k < n → loopCond (step^[k] s)) ∧ ¬loopCond u

/-! ### Helper lemmas: branch equations and projections -/

theorem npSign_of_neg {x : ℝ} (h : x < 0) : npSign x = -1 := by
  simp [npSign, h]

theorem npSign_zero : npSign 0 = 0 := by
  simp [npSign]

theorem npSign_of_pos {x : ℝ} (h : 0 < x) : npSign x = 1 := by
  simp [npSign, not_lt.mpr h.le, h.ne']

theorem step_eq (s : State) : step s = stepTail (stepCore s).1 (stepCore s).2 :=
  rfl

theorem stepCore_water (s : State) (hph : s.phase = Phase.water)
    (hw : s.V_water > 0) :
    stepCore s = (waterExitV s * -waterDm s,
      { s with
        V_air := V_bottle - s.V_water
        P := adiabaticP s (V_bottle - s.V_water)
        V_water := s.V_water + waterDm s / rho_water * dt
        m := s.m + waterDm s * dt }) := by
  simp [stepCore, hph, hw]

theorem stepCore_water_exhaust (s : State) (hph : s.phase = Phase.water)
    (hw : ¬s.V_water > 0) :
    stepCore s = (0, { s with phase := Phase.air }) := by
  simp [stepCore, hph, hw]

theorem stepCore_air (s : State) (hph : s.phase = Phase.air)
    (hP : s.P > P_atm) :
    stepCore s = (airExitV s * -airDm s + (s.P - P_atm) * A_t,
      { s with
        V_air := s.V_air + A_t * airExitV s * dt
        P := adiabaticP s (s.V_air + A_t * airExitV s * dt)
        T := T0 * (adiabaticP s (s.V_air + A_t * airExitV s * dt) / s.P0) ^
          ((gamma - 1) / gamma)
        m := s.m + airDm s * dt }) := by
  simp [stepCore, hph, hP]

theorem stepCore_air_exhaust (s : State) (hph : s.phase = Phase.air)
    (hP : ¬s.P > P_atm) :
    stepCore s = (0, { s with phase := Phase.coasting }) := by
  simp [stepCore, hph, hP]

theorem stepCore_coasting (s : State) (hph : s.phase = Phase.coasting) :
    stepCore s = (0, s) := by
  simp [stepCore, hph]

theorem stepTail_P0 (F : ℝ) (s : State) : (stepTail F s).P0 = s.P0 := rfl

theorem stepTail_V_water0 (F : ℝ) (s : State) :
    (stepTail F s).V_water0 = s.V_water0 := rfl

theorem stepTail_V_air0 (F : ℝ) (s : State) :
    (stepTail F s).V_air0 = s.V_air0 := rfl

theorem stepTail_V_air (F : ℝ) (s : State) : (stepTail F s).V_air = s.V_air :=
  rfl

theorem stepTail_V_water (F : ℝ) (s : State) :
    (stepTail F s).V_water = s.V_water := rfl

theorem stepTail_m (F : ℝ) (s : State) : (stepTail F s).m = s.m := rfl

theorem stepTail_P (F : ℝ) (s : State) : (stepTail F s).P = s.P := rfl

theorem stepTail_T (F : ℝ) (s : State) : (stepTail F s).T = s.T := rfl

theorem stepTail_phase (F : ℝ) (s : State) : (stepTail F s).phase = s.phase :=
  rfl

theorem stepTail_a (F : ℝ) (s : State) :
    (stepTail F s).a =
      (F - s.m * g - 0.5 * rho_air * s.v ^ 2 * C_d * A * npSign (-s.v)) / s.m :=
  rfl

theorem stepTail_v (F : ℝ) (s : State) :
    (stepTail F s).v = s.v + (stepTail F s).a * dt := rfl

theorem stepTail_y (F : ℝ) (s : State) :
    (stepTail F s).y = s.y + (stepTail F s).v * dt := rfl

theorem stepTail_t (F : ℝ) (s : State) : (stepTail F s).t = s.t + dt := rfl

theorem stepTail_record (F : ℝ) (s : State) :
    (stepTail F s).record = s.record ++
      [⟨(stepTail F s).t, (stepTail F s).y, (stepTail F s).v, (stepTail F s).a,
        if s.V_water0 > 0 then max s.V_water 0 / s.V_water0 * 100 else 0⟩] :=
  rfl

/-- The phase branch of `step` never touches the kinematic fields, the
record, or the constructor parameters. -/
theorem stepCore_frame (s : State) :
    (stepCore s).2.t = s.t ∧ (stepCore s).2.y = s.y ∧
    (stepCore s).2.v = s.v ∧ (stepCore s).2.a = s.a ∧
    (stepCore s).2.record = s.record ∧ (stepCore s).2.P0 = s.P0 ∧
    (stepCore s).2.V_water0 = s.V_water0 ∧ (stepCore s).2.V_air0 = s.V_air0 := by
  cases hph : s.phase
  · by_cases hw : s.V_water > 0
    · rw [stepCore_water s hph hw]
      exact ⟨rfl, rfl, rfl, rfl, rfl, rfl, rfl, rfl⟩
    · rw [stepCore_water_exhaust s hph hw]
      exact ⟨rfl, rfl, rfl, rfl, rfl, rfl, rfl, rfl⟩
  · by_cases hP : s.P > P_atm
    · rw [stepCore_air s hph hP]
      exact ⟨rfl, rfl, rfl, rfl, rfl, rfl, rfl, rfl⟩
    · rw [stepCore_air_exhaust s hph hP]
      exact ⟨rfl, rfl, rfl, rfl, rfl, rfl, rfl, rfl⟩
  · rw [stepCore_coasting s hph]
    exact ⟨rfl, rfl, rfl, rfl, rfl, rfl, rfl, rfl⟩

/-- Claim C1: every call to `step`, whatever the current phase, runs the
common tail after the phase-specific thrust computation: drag
`0.5*rho_air*v^2*C_d*A*sign(-v)` (zero at `v = 0` since `sign 0 = 0`), net
force `F_thrust - m*g - F_drag`, acceleration `F_net/m`, forward-Euler
updates `v += a*dt` then `y += v*dt` with the already-updated velocity,
time advance by `dt = 0.005`, and the append of exactly one record entry
`(t, y, v, a, water_level_percent)` with
`water_level_percent = max(V_water,0)/V_water0*100` if `V_water0 > 0`
else `0`. -/
theorem c1_step_common_tail (s : State) :
    (step s).a = ((stepCore s).1 - (step s).m * g -
        0.5 * rho_air * s.v ^ 2 * C_d * A * npSign (-s.v)) / (step s).m ∧
    (step s).v = s.v + (step s).a * dt ∧
    (step s).y = s.y + (step s).v * dt ∧
    (step s).t = s.t + 0.005 ∧
    (step s).record = s.record ++
      [⟨(step s).t, (step s).y, (step s).v, (step s).a,
        if s.V_water0 > 0 then max (step s).V_water 0 / s.V_water0 * 100
        else 0⟩] ∧
    npSign (-(0 : ℝ)) = 0 := by
  obtain ⟨ht, hy, hv, ha, hrec, hP0, hVw0, hVa0⟩ := stepCore_frame s
  rw [step_eq]
  refine ⟨?_, ?_, ?_, ?_, ?_, ?_⟩
  · rw [stepTail_a, stepTail_m, hv]
  · rw [stepTail_v, hv]
  · rw [stepTail_y, hy]
  · rw [stepTail_t, ht]
    norm_num [dt]
  · rw [stepTail_record, hrec, hVw0, stepTail_V_water]
  · rw [neg_zero, npSign_zero]

/-- Claim C10: while coasting, `step` only changes `t`, `y`, `v`, `a` and
appends one record entry; `m`, `P`, `T`, `V_air`, `V_water` and the phase
are untouched. -/
theorem c10_coasting_frame (s : State) (hph : s.phase = Phase.coasting) :
    (step s).m = s.m ∧ (step s).P = s.P ∧ (step s).T = s.T ∧
    (step s).V_air = s.V_air ∧ (step s).V_water = s.V_water ∧
    (step s).phase = Phase.coasting ∧
    (step s).record = s.record ++
      [⟨(step s).t, (step s).y, (step s).v, (step s).a,
        if s.V_water0 > 0 then max s.V_water 0 / s.V_water0 * 100 else 0⟩] := by
  rw [step_eq, stepCore_coasting s hph]
  exact ⟨rfl, rfl, rfl, rfl, rfl, hph ▸ stepTail_phase 0 s, rfl⟩

/-- A concrete coasting state, used to instantiate claims about the
coasting phase. -/
def coastState : State :=
  ⟨300000, 0.001, 1, 10, 5, 0, 0.001, 0.0025, -0.000001, 0.148, 101000, 250,
    Phase.coasting, []⟩

/-- Witness for C10 at a concrete coasting state. -/
theorem c10_coasting_frame_witness :
    coastState.phase = Phase.coasting ∧
    ((step coastState).m = coastState.m ∧
      (step coastState).P = coastState.P ∧
      (step coastState).T = coastState.T ∧
      (step coastState).V_air = coastState.V_air ∧
      (step coastState).V_water = coastState.V_water ∧
      (step coastState).phase = Phase.coasting ∧
      (step coastState).record = coastState.record ++
        [⟨(step coastState).t, (step coastState).y, (step coastState).v,
          (step coastState).a,
          if coastState.V_water0 > 0 then
            max coastState.V_water 0 / coastState.V_water0 * 100
          else 0⟩]) :=
  ⟨rfl, c10_coasting_frame coastState rfl⟩

/-- A concrete WATER-phase state with exhausted water, used to instantiate
claims about the water-to-air transition step. -/
def waterExhaustState : State :=
  ⟨300000, 0.001, 1, 5, 10, 0, 0.001, 0.002, 0, 0.15, 150000, 280,
    Phase.water, []⟩

/-- A concrete AIR-phase state with exhausted pressure, used to instantiate
claims about the air-to-coasting transition step. -/
def airExhaustState : State :=
  ⟨300000, 0.001, 1, 5, 10, 0, 0.001, 0.0022, -0.000001, 0.148, 101000, 250,
    Phase.air, []⟩

/-- Claim C5: the step that first observes an exhaustion condition
(`V_water <= 0` in phase WATER, `P <= P_atm` in phase AIR) contributes zero
thrust, only flips the phase for the next step, and performs no
phase-specific state update: mass, pressure, temperature and both volumes
are untouched, and the acceleration is computed with `F_thrust = 0`. -/
theorem c5_transition_thrust_gap (s : State) :
    (s.phase = Phase.water → s.V_water ≤ 0 →
      (step s).phase = Phase.air ∧ (step s).m = s.m ∧ (step s).P = s.P ∧
      (step s).T = s.T ∧ (step s).V_air = s.V_air ∧
      (step s).V_water = s.V_water ∧
      (step s).a = (0 - s.m * g -
        0.5 * rho_air * s.v ^ 2 * C_d * A * npSign (-s.v)) / s.m) ∧
    (s.phase = Phase.air → s.P ≤ P_atm →
      (step s).phase = Phase.coasting ∧ (step s).m = s.m ∧ (step s).P = s.P ∧
      (step s).T = s.T ∧ (step s).V_air = s.V_air ∧
      (step s).V_water = s.V_water ∧
      (step s).a = (0 - s.m * g -
        0.5 * rho_air * s.v ^ 2 * C_d * A * npSign (-s.v)) / s.m) := by
  constructor
  · intro hph hw
    rw [step_eq, stepCore_water_exhaust s hph (not_lt.mpr hw)]
    exact ⟨rfl, rfl, rfl, rfl, rfl, rfl, rfl⟩
  · intro hph hP
    rw [step_eq, stepCore_air_exhaust s hph (not_lt.mpr hP)]
    exact ⟨rfl, rfl, rfl, rfl, rfl, rfl, rfl⟩

/-- Witness for C5 at concrete transition states for both boundaries. -/
theorem c5_transition_thrust_gap_witness :
    (waterExhaustState.phase = Phase.water ∧ waterExhaustState.V_water ≤ 0 ∧
      (step waterExhaustState).phase = Phase.air ∧
      (step waterExhaustState).m = waterExhaustState.m) ∧
    (airExhaustState.phase = Phase.air ∧ airExhaustState.P ≤ P_atm ∧
      (step airExhaustState).phase = Phase.coasting ∧
      (step airExhaustState).P = airExhaustState.P) := by
  have hw : waterExhaustState.V_water ≤ 0 := le_refl 0
  have hPle : airExhaustState.P ≤ P_atm := by norm_num [airExhaustState, P_atm]
  have h1 := (c5_transition_thrust_gap waterExhaustState).1 rfl hw
  have h2 := (c5_transition_thrust_gap airExhaustState).2 rfl hPle
  exact ⟨⟨rfl, hw, h1.1, h1.2.1⟩, ⟨rfl, hPle, h2.1, h2.2.2.1⟩⟩

/-- Rank of a phase in the fixed order WATER, AIR, COASTING. -/
def phaseRank : Phase → ℕ
  | Phase.water => 0
  | Phase.air => 1
  | Phase.coasting => 2

/-- A single step never decreases the phase rank. -/
theorem phaseRank_step_le (s : State) :
    phaseRank s.phase ≤ phaseRank (step s).phase := by
  cases hph : s.phase
  · by_cases hw : s.V_water > 0
    · rw [step_eq, stepCore_water s hph hw, stepTail_phase]
      exact le_of_eq (congrArg phaseRank hph.symm)
    · rw [step_eq, stepCore_water_exhaust s hph hw, stepTail_phase]
      exact Nat.le_succ 0
  · by_cases hP : s.P > P_atm
    · rw [step_eq, stepCore_air s hph hP, stepTail_phase]
      exact le_of_eq (congrArg phaseRank hph.symm)
    · rw [step_eq, stepCore_air_exhaust s hph hP, stepTail_phase]
      exact Nat.le_succ 1
  · rw [step_eq, stepCore_coasting s hph, stepTail_phase]
    exact le_of_eq (congrArg phaseRank hph.symm)

/-- Claim C4: across any number of steps the phase rank is monotone along
the fixed order WATER, AIR, COASTING (never backward), and a step changes
the phase only when its exhaustion trigger fired: `V_water <= 0` for
WATER to AIR, `P <= P_atm` for AIR to COASTING. -/
theorem c4_phase_monotone (s : State) (n m : ℕ) (hnm : n ≤ m) :
    phaseRank ((step^[n]) s).phase ≤ phaseRank ((step^[m]) s).phase ∧
    ((step s).phase ≠ s.phase →
      (s.phase = Phase.water ∧ s.V_water ≤ 0 ∧
        (step s).phase = Phase.air) ∨
      (s.phase = Phase.air ∧ s.P ≤ P_atm ∧
        (step s).phase = Phase.coasting)) := by
  constructor
  · induction m with
    | zero =>
      have : n = 0 := Nat.le_zero.mp hnm
      simp [this]
    | succ m ih =>
      rcases Nat.lt_or_ge n (m + 1) with hlt | hge
      · have h1 := ih (Nat.lt_succ_iff.mp hlt)
        have h2 := phaseRank_step_le ((step^[m]) s)
        rw [Function.iterate_succ_apply']
        exact le_trans h1 h2
      · have : n = m + 1 := le_antisymm hnm hge
        simp [this]
  · intro hne
    cases hph : s.phase
    · by_cases hw : s.V_water > 0
      · exfalso
        apply hne
        rw [step_eq, stepCore_water s hph hw, stepTail_phase, hph]
      · exact Or.inl ⟨rfl, not_lt.mp hw, by
          rw [step_eq, stepCore_water_exhaust s hph hw, stepTail_phase]⟩
    · by_cases hP : s.P > P_atm
      · exfalso
        apply hne
        rw [step_eq, stepCore_air s hph hP, stepTail_phase, hph]
      · exact Or.inr ⟨rfl, not_lt.mp hP, by
          rw [step_eq, stepCore_air_exhaust s hph hP, stepTail_phase]⟩
    · exfalso
      apply hne
      rw [step_eq, stepCore_coasting s hph, stepTail_phase, hph]

/-- Witness for C4: a concrete water-exhausted state, one step. -/
theorem c4_phase_monotone_witness :
    (0 : ℕ) ≤ 1 ∧
    (phaseRank ((step^[0]) waterExhaustState).phase ≤
        phaseRank ((step^[1]) waterExhaustState).phase ∧
      ((step waterExhaustState).phase ≠ waterExhaustState.phase →
        (waterExhaustState.phase = Phase.water ∧
          waterExhaustState.V_water ≤ 0 ∧
          (step waterExhaustState).phase = Phase.air) ∨
        (waterExhaustState.phase = Phase.air ∧
          waterExhaustState.P ≤ P_atm ∧
          (step waterExhaustState).phase = Phase.coasting))) :=
  ⟨Nat.zero_le 1, c4_phase_monotone waterExhaustState 0 1 (Nat.zero_le 1)⟩

/-! ### The physical invariant and mass monotonicity -/

/-- Nonnegativity facts preserved by `step` for states reachable from a
valid construction: pressure, temperature, initial pressure, air volumes
are nonnegative and the water volume never exceeds the bottle. -/
def Inv (s : State) : Prop :=
  0 ≤ s.P ∧ 0 ≤ s.T ∧ 0 ≤ s.P0 ∧ 0 ≤ s.V_air0 ∧ 0 ≤ s.V_air ∧
    s.V_water ≤ V_bottle

theorem waterExitV_nonneg (s : State) : 0 ≤ waterExitV s :=
  Real.sqrt_nonneg _

theorem airExitV_nonneg (s : State) : 0 ≤ airExitV s :=
  Real.sqrt_nonneg _

theorem waterDm_nonpos (s : State) : waterDm s ≤ 0 := by
  have h := waterExitV_nonneg s
  unfold waterDm rho_water A_t
  linarith

theorem airTexit_nonneg {s : State} (hT : 0 ≤ s.T) (hP : 0 ≤ s.P)
    (hP0 : 0 ≤ s.P0) : 0 ≤ airTexit s :=
  mul_nonneg hT (Real.rpow_nonneg (div_nonneg hP hP0) _)

theorem airRhoExit_nonneg {s : State} (hT : 0 ≤ s.T) (hP : 0 ≤ s.P)
    (hP0 : 0 ≤ s.P0) : 0 ≤ airRhoExit s :=
  div_nonneg hP (mul_nonneg (by norm_num [R_specific])
    (airTexit_nonneg hT hP hP0))

theorem airDm_nonpos {s : State} (hT : 0 ≤ s.T) (hP : 0 ≤ s.P)
    (hP0 : 0 ≤ s.P0) : airDm s ≤ 0 := by
  have h1 := airRhoExit_nonneg hT hP hP0
  have h2 := airExitV_nonneg s
  unfold airDm A_t
  linarith [mul_nonneg h1 h2]

theorem adiabaticP_nonneg {s : State} (hP0 : 0 ≤ s.P0) (hVa0 : 0 ≤ s.V_air0)
    {V : ℝ} (hV : 0 ≤ V) : 0 ≤ adiabaticP s V :=
  mul_nonneg hP0 (Real.rpow_nonneg (div_nonneg hVa0 hV) _)

theorem dt_pos : (0:ℝ) < dt := by norm_num [dt]

/-- A freshly constructed simulator with valid parameters satisfies the
invariant. -/
theorem inv_init (P0 V0 : ℝ) (hP : 0 ≤ P0) (_h0 : 0 ≤ V0)
    (hVb : V0 ≤ V_bottle) : Inv (init P0 V0) :=
  ⟨hP, by norm_num [init, T0], hP, sub_nonneg.mpr hVb, sub_nonneg.mpr hVb,
    hVb⟩

/-- `step` preserves the invariant. -/
theorem inv_step {s : State} (h : Inv s) : Inv (step s) := by
  obtain ⟨hP, hT, hP0, hVa0, hVa, hVw⟩ := h
  cases hph : s.phase
  · by_cases hw : s.V_water > 0
    · rw [step_eq, stepCore_water s hph hw]
      have hVa1 : (0:ℝ) ≤ V_bottle - s.V_water := sub_nonneg.mpr hVw
      refine ⟨adiabaticP_nonneg hP0 hVa0 hVa1, hT, hP0, hVa0, hVa1, ?_⟩
      have h1 := waterDm_nonpos s
      have h2 : waterDm s / rho_water * dt ≤ 0 := by
        unfold rho_water dt
        linarith
      show s.V_water + waterDm s / rho_water * dt ≤ V_bottle
      linarith
    · rw [step_eq, stepCore_water_exhaust s hph hw]
      exact ⟨hP, hT, hP0, hVa0, hVa, hVw⟩
  · by_cases hPa : s.P > P_atm
    · rw [step_eq, stepCore_air s hph hPa]
      have hVa1 : (0:ℝ) ≤ s.V_air + A_t * airExitV s * dt := by
        have h3 : (0:ℝ) ≤ A_t * airExitV s * dt := by
          have := airExitV_nonneg s
          unfold A_t dt
          linarith
        linarith
      refine ⟨adiabaticP_nonneg hP0 hVa0 hVa1, ?_, hP0, hVa0, hVa1, hVw⟩
      show (0:ℝ) ≤ T0 * (adiabaticP s (s.V_air + A_t * airExitV s * dt) /
        s.P0) ^ ((gamma - 1) / gamma)
      exact mul_nonneg (by norm_num [T0])
        (Real.rpow_nonneg
          (div_nonneg (adiabaticP_nonneg hP0 hVa0 hVa1) hP0) _)
    · rw [step_eq, stepCore_air_exhaust s hph hPa]
      exact ⟨hP, hT, hP0, hVa0, hVa, hVw⟩
  · rw [step_eq, stepCore_coasting s hph]
    exact ⟨hP, hT, hP0, hVa0, hVa, hVw⟩

/-- Under the invariant the total mass never increases in one step. -/
theorem step_m_le {s : State} (h : Inv s) : (step s).m ≤ s.m := by
  obtain ⟨hP, hT, hP0, hVa0, hVa, hVw⟩ := h
  cases hph : s.phase
  · by_cases hw : s.V_water > 0
    · rw [step_eq, stepCore_water s hph hw]
      show s.m + waterDm s * dt ≤ s.m
      have h1 := waterDm_nonpos s
      unfold dt
      linarith
    · rw [step_eq, stepCore_water_exhaust s hph hw]
      exact le_refl s.m
  · by_cases hPa : s.P > P_atm
    · rw [step_eq, stepCore_air s hph hPa]
      show s.m + airDm s * dt ≤ s.m
      have h1 := airDm_nonpos hT hP hP0
      unfold dt
      linarith
    · rw [step_eq, stepCore_air_exhaust s hph hPa]
      exact le_refl s.m
  · rw [step_eq, stepCore_coasting s hph]
    exact le_refl s.m

/-- While coasting, one step leaves the mass unchanged. -/
theorem step_m_coasting {s : State} (hph : s.phase = Phase.coasting) :
    (step s).m = s.m := by
  rw [step_eq, stepCore_coasting s hph]
  exact stepTail_m _ _

/-- Claim C6: starting from any valid construction, along the whole run the
total mass is monotonically non-increasing at every step (in particular
through the WATER and AIR phases), and a step taken in the COASTING phase
leaves the mass exactly unchanged. -/
theorem c6_mass_monotone (P0 V0 : ℝ) (hP : 0 ≤ P0) (h0 : 0 ≤ V0)
    (hVb : V0 ≤ V_bottle) (n : ℕ) :
    (step^[n + 1] (init P0 V0)).m ≤ (step^[n] (init P0 V0)).m ∧
    ((step^[n] (init P0 V0)).phase = Phase.coasting →
      (step^[n + 1] (init P0 V0)).m = (step^[n] (init P0 V0)).m) := by
  have hinv : ∀ k, Inv (step^[k] (init P0 V0)) := by
    intro k
    induction k with
    | zero => simpa using inv_init P0 V0 hP h0 hVb
    | succ k ih =>
      rw [Function.iterate_succ_apply']
      exact inv_step ih
  constructor
  · rw [Function.iterate_succ_apply']
    exact step_m_le (hinv n)
  · intro hph
    rw [Function.iterate_succ_apply']
    exact step_m_coasting hph

/-- Witness for C6 at the documented scenario parameters, first step. -/
theorem c6_mass_monotone_witness :
    ((0:ℝ) ≤ 300000 ∧ (0:ℝ) ≤ 0.001 ∧ (0.001:ℝ) ≤ V_bottle) ∧
    ((step^[0 + 1] (init 300000 0.001)).m ≤ (step^[0] (init 300000 0.001)).m ∧
      ((step^[0] (init 300000 0.001)).phase = Phase.coasting →
        (step^[0 + 1] (init 300000 0.001)).m =
          (step^[0] (init 300000 0.001)).m)) :=
  ⟨⟨by norm_num, by norm_num, by norm_num [V_bottle]⟩,
    c6_mass_monotone 300000 0.001 (by norm_num) (by norm_num)
      (by norm_num [V_bottle]) 0⟩

/-! ### Volume bookkeeping: claims C3 and C7 -/

/-- Counterexample to claim C3 as stated: from the valid construction
`P0 = 300000`, `V_water0 = 0.001` the very first step runs in the WATER
phase and appends a record, yet after it `V_air + V_water` falls short of
the bottle volume by more than `10^-6` cubic metres (about half a percent
of the bottle, far beyond floating-point tolerance), because `V_air` is
set from the pre-update water volume while `V_water` is then advanced by
the Euler update. -/
theorem c3_counterexample :
    (init 300000 0.001).phase = Phase.water ∧
    (init 300000 0.001).V_water > 0 ∧
    (step (init 300000 0.001)).record.length = 1 ∧
    (step (init 300000 0.001)).V_air + (step (init 300000 0.001)).V_water <
      V_bottle - 1 / 1000000 := by
  have hw : (init 300000 0.001).V_water > 0 := by norm_num [init]
  have hcore := stepCore_water (init 300000 0.001) rfl hw
  refine ⟨rfl, hw, ?_, ?_⟩
  · rw [step_eq, stepTail_record,
      (stepCore_frame (init 300000 0.001)).2.2.2.2.1]
    simp [init]
  · rw [step_eq, hcore, stepTail_V_air, stepTail_V_water]
    have hs : (2:ℝ) < waterExitV (init 300000 0.001) := by
      unfold waterExitV
      rw [Real.lt_sqrt (by norm_num)]
      norm_num [init, P_atm, rho_water]
    show V_bottle - (init 300000 0.001).V_water +
      ((init 300000 0.001).V_water +
        waterDm (init 300000 0.001) / rho_water * dt) <
      V_bottle - 1 / 1000000
    unfold waterDm
    generalize hv : waterExitV (init 300000 0.001) = w at hs ⊢
    norm_num [init, rho_water, A_t, dt, V_bottle]
    linarith

/-- Amended claim C3: within each WATER-phase thrust step, `V_air` is set
to exactly `V_bottle - V_water` from the pre-update water volume (so the
identity `V_air + V_water = V_bottle` holds against that volume), and the
recorded post-step sum falls short of the bottle volume by exactly that
step's expelled water volume `A_t * v_e * dt`; in the AIR phase `V_water`
is frozen and `V_air` grows by `A_t * v_e * dt` each thrust step with no
tie to the bottle volume. -/
theorem c3_amended (s : State) :
    (s.phase = Phase.water → s.V_water > 0 →
      (step s).V_air + s.V_water = V_bottle ∧
      (step s).V_air + (step s).V_water =
        V_bottle - A_t * waterExitV s * dt) ∧
    (s.phase = Phase.air → s.P > P_atm →
      (step s).V_water = s.V_water ∧
      (step s).V_air = s.V_air + A_t * airExitV s * dt) := by
  constructor
  · intro hph hw
    rw [step_eq, stepCore_water s hph hw, stepTail_V_air, stepTail_V_water]
    constructor
    · show V_bottle - s.V_water + s.V_water = V_bottle
      ring
    · show V_bottle - s.V_water +
        (s.V_water + waterDm s / rho_water * dt) =
        V_bottle - A_t * waterExitV s * dt
      unfold waterDm rho_water
      ring
  · intro hph hP
    rw [step_eq, stepCore_air s hph hP, stepTail_V_air, stepTail_V_water]
    exact ⟨rfl, rfl⟩

/-- A concrete AIR-phase state with pressure above ambient, used to
instantiate claims about air-phase thrust steps. -/
def airThrustState : State :=
  ⟨300000, 0.001, 1, 5, 10, 0, 0.001, 0.0021, -0.000001, 0.149, 150000, 280,
    Phase.air, []⟩

/-- Witness for the amended C3 at concrete water- and air-phase states. -/
theorem c3_amended_witness :
    ((init 300000 0.001).phase = Phase.water ∧
      (init 300000 0.001).V_water > 0 ∧
      (step (init 300000 0.001)).V_air + (init 300000 0.001).V_water =
        V_bottle) ∧
    (airThrustState.phase = Phase.air ∧ airThrustState.P > P_atm ∧
      (step airThrustState).V_water = airThrustState.V_water) := by
  have hw : (init 300000 0.001).V_water > 0 := by norm_num [init]
  have hP : airThrustState.P > P_atm := by norm_num [airThrustState, P_atm]
  have h1 := (c3_amended (init 300000 0.001)).1 rfl hw
  have h2 := (c3_amended airThrustState).2 rfl hP
  exact ⟨⟨rfl, hw, h1.1⟩, ⟨rfl, hP, h2.1⟩⟩

/-- Counterexample to claim C7 as stated: the valid construction
`P0 = 101825`, `V_water0 = 10^-9` satisfies the run-loop guard at start,
and the first step of the run — a WATER-phase step whose exit velocity is
exactly `sqrt 1 = 1` — drives `V_water` to `10^-9 - 5*10^-7 < 0`: the
Euler update overshoots below zero. -/
theorem c7_counterexample :
    P_atm < (101825:ℝ) ∧ (0:ℝ) ≤ 1 / 1000000000 ∧
    (1 / 1000000000 : ℝ) ≤ V_bottle ∧
    loopCond (init 101825 (1 / 1000000000)) ∧
    (step (init 101825 (1 / 1000000000))).V_water < 0 := by
  have hw : (init 101825 (1 / 1000000000)).V_water > 0 := by norm_num [init]
  have hcore := stepCore_water (init 101825 (1 / 1000000000)) rfl hw
  refine ⟨by norm_num [P_atm], by norm_num, by norm_num [V_bottle],
    Or.inl (by norm_num [init]), ?_⟩
  rw [step_eq, hcore, stepTail_V_water]
  show (init 101825 (1 / 1000000000)).V_water +
    waterDm (init 101825 (1 / 1000000000)) / rho_water * dt < 0
  have h1 : waterExitV (init 101825 (1 / 1000000000)) = 1 := by
    unfold waterExitV
    rw [show 2 * ((init 101825 (1 / 1000000000)).P - P_atm) / rho_water =
      (1:ℝ) by norm_num [init, P_atm, rho_water]]
    exact Real.sqrt_one
  unfold waterDm
  rw [h1]
  norm_num [init, rho_water, A_t, dt]

/-- Amended claim C7: `V_water` is non-increasing but not bounded below by
zero: a WATER-phase thrust step decreases it by exactly `A_t * v_e * dt`,
which can overshoot past zero on the final such step; once `V_water ≤ 0`
no later step ever changes it. -/
theorem c7_amended (s : State) :
    (step s).V_water ≤ s.V_water ∧
    (s.V_water ≤ 0 → (step s).V_water = s.V_water) ∧
    (s.phase = Phase.water → s.V_water > 0 →
      (step s).V_water = s.V_water - A_t * waterExitV s * dt) := by
  have hdec : ∀ u : State, u.phase = Phase.water → u.V_water > 0 →
      (step u).V_water = u.V_water - A_t * waterExitV u * dt := by
    intro u hph hw
    rw [step_eq, stepCore_water u hph hw, stepTail_V_water]
    show u.V_water + waterDm u / rho_water * dt =
      u.V_water - A_t * waterExitV u * dt
    unfold waterDm rho_water
    ring
  refine ⟨?_, ?_, hdec s⟩
  · cases hph : s.phase
    · by_cases hw : s.V_water > 0
      · rw [hdec s hph hw]
        have h2 : (0:ℝ) ≤ A_t * waterExitV s * dt := by
          have := waterExitV_nonneg s
          unfold A_t dt
          linarith
        linarith
      · rw [step_eq, stepCore_water_exhaust s hph hw]
        exact le_refl s.V_water
    · by_cases hP : s.P > P_atm
      · rw [step_eq, stepCore_air s hph hP]
        exact le_refl s.V_water
      · rw [step_eq, stepCore_air_exhaust s hph hP]
        exact le_refl s.V_water
    · rw [step_eq, stepCore_coasting s hph]
      exact le_refl s.V_water
  · intro hw0
    cases hph : s.phase
    · rw [step_eq, stepCore_water_exhaust s hph (not_lt.mpr hw0)]
      exact stepTail_V_water _ _
    · by_cases hP : s.P > P_atm
      · rw [step_eq, stepCore_air s hph hP]
        exact stepTail_V_water _ _
      · rw [step_eq, stepCore_air_exhaust s hph hP]
        exact stepTail_V_water _ _
    · rw [step_eq, stepCore_coasting s hph]
      exact stepTail_V_water _ _

/-- Witness for the amended C7 at concrete states for both hypotheses. -/
theorem c7_amended_witness :
    (airExhaustState.V_water ≤ 0 ∧
      (step airExhaustState).V_water = airExhaustState.V_water) ∧
    ((init 300000 0.001).phase = Phase.water ∧
      (init 300000 0.001).V_water > 0 ∧
      (step (init 300000 0.001)).V_water =
        (init 300000 0.001).V_water -
          A_t * waterExitV (init 300000 0.001) * dt) := by
  have h0 : airExhaustState.V_water ≤ 0 := by norm_num [airExhaustState]
  have hw : (init 300000 0.001).V_water > 0 := by norm_num [init]
  exact ⟨⟨h0, (c7_amended airExhaustState).2.1 h0⟩,
    ⟨rfl, hw, (c7_amended (init 300000 0.001)).2.2 rfl hw⟩⟩

/-! ### The run loop: determinism and (non-)termination -/

/-- The velocity after a step is the old velocity plus the new acceleration
times `dt`. -/
theorem step_v_eq (u : State) : (step u).v = u.v + (step u).a * dt := by
  rw [step_eq, stepTail_v, (stepCore_frame u).2.2.1]

/-- While coasting, one step leaves the phase at COASTING. -/
theorem step_phase_coasting {u : State} (h1 : u.phase = Phase.coasting) :
    (step u).phase = Phase.coasting := by
  rw [step_eq, stepCore_coasting u h1]
  exact (stepTail_phase _ _).trans h1

/-- Claim C9: the simulation is deterministic — two `run`s from identically
constructed simulators stop in the same state, with identical flight
records. -/
theorem c9_run_deterministic (P0 V0 : ℝ) (s₁ s₂ : State)
    (h₁ : RunTo (init P0 V0) s₁) (h₂ : RunTo (init P0 V0) s₂) :
    s₁ = s₂ ∧ s₁.record = s₂.record := by
  obtain ⟨n₁, he₁, hall₁, hn₁⟩ := h₁
  obtain ⟨n₂, he₂, hall₂, hn₂⟩ := h₂
  have hnn : n₁ = n₂ := by
    by_contra hne
    rcases Nat.lt_or_ge n₁ n₂ with hlt | hge
    · exact hn₁ (by rw [he₁]; exact hall₂ n₁ hlt)
    · have hlt2 : n₂ < n₁ := lt_of_le_of_ne hge (Ne.symm hne)
      exact hn₂ (by rw [he₂]; exact hall₁ n₂ hlt2)
  have : s₁ = s₂ := by rw [he₁, he₂, hnn]
  exact ⟨this, by rw [this]⟩

/-- Witness for C9: from `P0 = 300000`, `V_water0 = 0` the run stops after
exactly one step (the transition step has zero thrust, so the rocket
immediately "falls": `y < 0` and `v < 0`). -/
theorem c9_run_deterministic_witness :
    RunTo (init 300000 0) (step (init 300000 0)) ∧
    (step (init 300000 0) = step (init 300000 0) ∧
      (step (init 300000 0)).record = (step (init 300000 0)).record) := by
  have hcore0 := stepCore_water_exhaust (init 300000 0) rfl
    (by norm_num [init])
  have hy : (step (init 300000 0)).y < 0 := by
    rw [step_eq, hcore0, stepTail_y, stepTail_v, stepTail_a]
    show (init 300000 0).y + ((init 300000 0).v +
      (0 - (init 300000 0).m * g - 0.5 * rho_air * (init 300000 0).v ^ 2 *
        C_d * A * npSign (-(init 300000 0).v)) / (init 300000 0).m * dt) *
      dt < 0
    norm_num [init, npSign, g, rho_air, C_d, A, dt, m_empty, rho_water]
  have hv : (step (init 300000 0)).v ≤ 0 := by
    rw [step_eq, hcore0, stepTail_v, stepTail_a]
    show (init 300000 0).v + (0 - (init 300000 0).m * g -
      0.5 * rho_air * (init 300000 0).v ^ 2 * C_d * A *
        npSign (-(init 300000 0).v)) / (init 300000 0).m * dt ≤ 0
    norm_num [init, npSign, g, rho_air, C_d, A, dt, m_empty, rho_water]
  have hnc : ¬loopCond (step (init 300000 0)) := by
    rintro (h | h)
    · linarith
    · linarith
  have hrun : RunTo (init 300000 0) (step (init 300000 0)) := by
    refine ⟨1, by rw [Function.iterate_one], ?_, hnc⟩
    intro k hk
    have hk0 : k = 0 := Nat.lt_one_iff.mp hk
    subst hk0
    rw [Function.iterate_zero_apply]
    exact Or.inl (by norm_num [init])
  exact ⟨hrun, c9_run_deterministic 300000 0 _ _ hrun hrun⟩

/-- Claim C2 fails on the code: because the already sign-flipped drag force
is subtracted again in `F_net`, drag assists the motion.  From any
COASTING state moving upward fast enough that the mis-signed drag
outweighs gravity, every later step keeps the rocket coasting at the same
mass with non-decreasing positive velocity, so the guard `v > 0` of the
`run` loop holds forever and `run` never terminates.  (Such states are
reached from valid constructions, e.g. `P0 = 300000`, `V_water0 = 0.0005`
enters coasting at about `v = 28.2 > 23.9`, the runaway threshold.) -/
theorem c2_coasting_runaway_no_termination (s : State)
    (hph : s.phase = Phase.coasting) (hm : 0 < s.m) (hv : 0 < s.v)
    (hd : s.m * g ≤ 0.5 * rho_air * s.v ^ 2 * C_d * A) :
    ∀ u : State, ¬RunTo s u := by
  have hstep : ∀ u : State, u.phase = Phase.coasting → u.m = s.m →
      s.v ≤ u.v → u.v ≤ (step u).v := by
    intro u h1 h2 h3
    have hvu : 0 < u.v := lt_of_lt_of_le hv h3
    have ha : 0 ≤ (step u).a := by
      rw [step_eq, stepCore_coasting u h1, stepTail_a]
      show 0 ≤ (0 - u.m * g - 0.5 * rho_air * u.v ^ 2 * C_d * A *
        npSign (-u.v)) / u.m
      rw [npSign_of_neg (neg_lt_zero.mpr hvu), h2]
      apply div_nonneg _ hm.le
      have hsq : s.v ^ 2 ≤ u.v ^ 2 := pow_le_pow_left₀ hv.le h3 2
      unfold g rho_air C_d A at hd ⊢
      linarith
    rw [step_v_eq]
    have h4 : 0 ≤ (step u).a * dt := mul_nonneg ha dt_pos.le
    linarith
  have key : ∀ n : ℕ, (step^[n] s).phase = Phase.coasting ∧
      (step^[n] s).m = s.m ∧ s.v ≤ (step^[n] s).v := by
    intro n
    induction n with
    | zero => exact ⟨hph, rfl, le_refl _⟩
    | succ n ih =>
      obtain ⟨h1, h2, h3⟩ := ih
      rw [Function.iterate_succ_apply']
      refine ⟨step_phase_coasting h1, (step_m_coasting h1).trans h2, ?_⟩
      exact le_trans h3 (hstep _ h1 h2 h3)
  intro u hru
  obtain ⟨n, he, hall, hn⟩ := hru
  apply hn
  right
  rw [he]
  exact lt_of_lt_of_le hv (key n).2.2

/-- A concrete runaway coasting state (velocity 30 m/s, empty mass): the
mis-signed drag exceeds the weight, so the run loop never exits. -/
def runawayState : State :=
  ⟨300000, 0.0005, 1, 50, 30, 0, 0.0015, 0.0025, -0.000001, 0.15, 101000,
    250, Phase.coasting, []⟩

/-- Witness for the C2 refutation theorem at the concrete runaway state. -/
theorem c2_coasting_runaway_witness :
    (runawayState.phase = Phase.coasting ∧ 0 < runawayState.m ∧
      0 < runawayState.v ∧
      runawayState.m * g ≤
        0.5 * rho_air * runawayState.v ^ 2 * C_d * A) ∧
    ¬RunTo runawayState (init 300000 0.0005) := by
  have h1 : runawayState.phase = Phase.coasting := rfl
  have h2 : (0:ℝ) < runawayState.m := by norm_num [runawayState]
  have h3 : (0:ℝ) < runawayState.v := by norm_num [runawayState]
  have h4 : runawayState.m * g ≤
      0.5 * rho_air * runawayState.v ^ 2 * C_d * A := by
    norm_num [runawayState, g, rho_air, C_d, A]
  exact ⟨⟨h1, h2, h3, h4⟩,
    c2_coasting_runaway_no_termination runawayState h1 h2 h3 h4 _⟩

/-! ### Division errors: claim C8

Python raises `ZeroDivisionError` when a float division has a zero
divisor.  `stepCoreE`/`stepE` are `step` with an explicit error result at
every division of the Python code whose divisor is state-dependent, each
guard placed in the execution order of the source (divisions by the
nonzero constants `rho_water` and `gamma - 1` cannot raise and carry no
guard; the water-level division on line 117 is reached only under
`V_water0 > 0`, which already excludes a zero divisor). -/

/-- The phase branch of `step` with Python division-error propagation:
line 58 divides by `self.V_air` just set to `V_bottle - V_water`, lines
72/83 divide by `self.P0`, line 74 divides by `P_exit`, line 76 divides by
`R_specific * T_exit`, line 82 divides by the just-updated `self.V_air`.
Each guard is placed in the execution order of the source; when no guard
fires, the branch computes exactly what the pure branch `stepCore`
computes, so the success result is written `some (stepCore s)`. -/
noncomputable def stepCoreE (s : State) : Option (ℝ × State) :=
  match s.phase with
  | Phase.water =>
    if s.V_water > 0 then
      if V_bottle - s.V_water = 0 then none
      else some (stepCore s)
    else some (stepCore s)
  | Phase.air =>
    if s.P > P_atm then
      if s.P0 = 0 then none
      else if s.P = 0 then none
      else if R_specific * airTexit s = 0 then none
      else if s.V_air + A_t * airExitV s * dt = 0 then none
      else some (stepCore s)
    else some (stepCore s)
  | Phase.coasting => some (stepCore s)

/-- `step` with Python division-error propagation: the phase branch may
raise, and the common tail divides by `self.m` on line 101. -/
noncomputable def stepE (s : State) : Option State :=
  match stepCoreE s with
  | none => none
  | some p => if p.2.m = 0 then none else some (stepTail p.1 p.2)

/-- When the phase branch raises no division error it computes exactly
what `stepCore` computes. -/
theorem stepCoreE_some {s : State} {p : ℝ × State}
    (h : stepCoreE s = some p) : p = stepCore s := by
  cases hph : s.phase
  · by_cases h1 : s.V_water > 0
    · by_cases h2 : V_bottle - s.V_water = 0
      · simp [stepCoreE, hph, h1, h2] at h
      · simp [stepCoreE, hph, h1, h2] at h
        exact h.symm
    · simp [stepCoreE, hph, h1] at h
      exact h.symm
  · by_cases h1 : s.P > P_atm
    · by_cases h2 : s.P0 = 0
      · simp [stepCoreE, hph, h1, h2] at h
      · by_cases h3 : s.P = 0
        · rw [h3] at h1
          norm_num [P_atm] at h1
        · by_cases h4 : R_specific * airTexit s = 0
          · simp [stepCoreE, hph, h1, h2, h3, h4] at h
          · by_cases h5 : s.V_air + A_t * airExitV s * dt = 0
            · simp [stepCoreE, hph, h1, h2, h3, h4, h5] at h
            · simp [stepCoreE, hph, h1, h2, h3, h4, h5] at h
              exact h.symm
    · simp [stepCoreE, hph, h1] at h
      exact h.symm
  · simp [stepCoreE, hph] at h
    exact h.symm

/-- When no division error is raised, the checked step agrees with the
total embedding `step`. -/
theorem stepE_some {s u : State} (h : stepE s = some u) : u = step s := by
  cases hc : stepCoreE s with
  | none => simp [stepE, hc] at h
  | some p =>
    have hp := stepCoreE_some hc
    by_cases hm : p.2.m = 0
    · simp [stepE, hc, hm] at h
    · simp [stepE, hc, hm] at h
      rw [← h, hp, step_eq]

/-- Claim C8 fails on the code: for the boundary input
`V_water0 = V_bottle` the derived `V_air0` is zero, the first step runs
the WATER thrust branch (`V_water = 0.002 > 0`) and its pressure update
divides `V_air0` by the freshly assigned `V_air = V_bottle - V_water = 0`:
in Python `0.0 / 0.0` raises `ZeroDivisionError`.  Nothing excludes or
special-cases the degenerate input. -/
theorem c8_full_bottle_division_error :
    (init 300000 V_bottle).V_water > 0 ∧
    (init 300000 V_bottle).phase = Phase.water ∧
    V_bottle - (init 300000 V_bottle).V_water = 0 ∧
    stepE (init 300000 V_bottle) = none := by
  refine ⟨by norm_num [init, V_bottle], rfl, by norm_num [init], ?_⟩
  unfold stepE
  have h : stepCoreE (init 300000 V_bottle) = none := by
    unfold stepCoreE
    norm_num [init, V_bottle]
  rw [h]

end WaterRocket
